import Mathlib

/-!
Shallow embedding of the api-generator authorization core:
`src/wrappers/auth.ts`, the identity validator (`isValidJwtPayload`), and the
batch update resolver `src/resolvers/updateByIdEach.ts`.

JavaScript runtime values are modelled by the inductive `JsVal`; records,
filters, projections and identity claims are all `JsVal` objects, matching the
duck-typed source. Strict equality (`===`) on primitives is structural; on
arrays and objects it is reference equality, which is modelled as `false`
(the compared references in this code are always freshly produced values).
Asynchronous resolvers are modelled as pure functions, and every wrapped
resolver returns a `ResolveOutcome` recording its result together with the
auxiliary fetch calls and delegate calls it performed, so that claims about
"no store access" and "delegates unmodified" are directly statable.
-/

namespace ApiGenerator

/-- Model of a JavaScript runtime value, covering the shapes used by the
    authorization core: undefined, null, booleans, numbers, strings, arrays
    and plain objects (association lists of field name and value). -/
inductive JsVal where
  | vUndef : JsVal
  | vNull : JsVal
  | vBool : Bool → JsVal
  | vNum : Int → JsVal
  | vStr : String → JsVal
  | vArr : List JsVal → JsVal
  | vObj : List (String × JsVal) → JsVal

open JsVal

/-- JavaScript truthiness of a value. -/
def truthy : JsVal → Bool
  | vUndef => false
  | vNull => false
  | vBool b => b
  | vNum n => n != 0
  | vStr s => s != ""
  | vArr _ => true
  | vObj _ => true

/-- JavaScript strict equality on the values compared in this code:
    structural on primitives, false on arrays and objects (reference
    equality between distinct references). -/
def strictEq : JsVal → JsVal → Bool
  | vUndef, vUndef => true
  | vNull, vNull => true
  | vBool a, vBool b => a == b
  | vNum a, vNum b => a == b
  | vStr a, vStr b => a == b
  | _, _ => false

/-- Lookup of a field in an object field list (first match wins, as in a
    JavaScript object, whose keys are unique). -/
def lookupField (l : List (String × JsVal)) (k : String) : JsVal :=
  match l.find? (fun p => p.1 == k) with
  | some p => p.2
  | none => vUndef

/-- Property read `o[k]`: field lookup on objects, `length` on arrays,
    undefined elsewhere. -/
def getField : JsVal → String → JsVal
  | vObj fields, k => lookupField fields k
  | vArr xs, k => if k == "length" then vNum xs.length else vUndef
  | _, _ => vUndef

/-- Assignment into an object field list: overwrite the key where present
    (keeping its position, as JavaScript does), append it otherwise. -/
def setFields (l : List (String × JsVal)) (k : String) (v : JsVal) :
    List (String × JsVal) :=
  if l.any (fun p => p.1 == k) then
    l.map (fun p => if p.1 == k then (k, v) else p)
  else
    l ++ [(k, v)]

/-- Property write `o[k] = v`, modelled functionally: updates objects and is
    the identity elsewhere (property writes on primitives are discarded). -/
def setField : JsVal → String → JsVal → JsVal
  | vObj fields, k, v => vObj (setFields fields k v)
  | o, _, _ => o

/-- View of a value as a list of elements (arrays only). -/
def asArr : JsVal → List JsVal
  | vArr xs => xs
  | _ => []

/-- Map a function over the elements of an array value. -/
def mapArr (f : JsVal → JsVal) : JsVal → JsVal
  | vArr xs => vArr (xs.map f)
  | v => v

/-- Translation of `isArrayOfStrings` from the identity validator. -/
def isArrayOfStrings (v : JsVal) : Bool :=
  match v with
  | vArr xs => xs.all (fun x => match x with | vStr _ => true | _ => false)
  | _ => false

/-- Translation of `isValidJwtPayload`: a falsy claim is invalid, otherwise
    the claim is valid iff its `id` is truthy and its `permissions` is an
    array of strings. -/
def isValidJwtPayload (jwt : JsVal) : Bool :=
  if !truthy jwt then false
  else truthy (getField jwt "id") && isArrayOfStrings (getField jwt "permissions")

/-- Translation of `EntityAuthConfig` (the per-entity access policy). -/
structure EntityAuthConfig where
  readAll : List String
  writeAll : List String
  writeSelf : List String
  readSelf : List String
  userIdField : Option String

/-- The owner field name used by the wrappers (`authConfig.userIdField!`). -/
def uidField (c : EntityAuthConfig) : String :=
  c.userIdField.getD ""

/-- Truth of the JavaScript test `!authConfig.userIdField`: the field is
    absent or the empty string. -/
def userIdFieldFalsy (c : EntityAuthConfig) : Bool :=
  match c.userIdField with
  | none => true
  | some s => s == ""

/-- String elements of a permissions value, for intersection with a policy
    role list (`_.intersection` between the claim roles and a string list). -/
def strList (v : JsVal) : List String :=
  match v with
  | vArr xs => xs.filterMap (fun x => match x with | vStr s => some s | _ => none)
  | _ => []

/-- Nonemptiness of the intersection of the claim roles with a role set. -/
def rolesIntersect (perms : JsVal) (roles : List String) : Bool :=
  (strList perms).any (fun p => roles.contains p)

/-- Translation of `checkIfCanReadAll`. -/
def checkIfCanReadAll (jwt : JsVal) (c : EntityAuthConfig) : Bool :=
  rolesIntersect (getField jwt "permissions") c.readAll

/-- Translation of `checkIfCanWriteAll`. -/
def checkIfCanWriteAll (jwt : JsVal) (c : EntityAuthConfig) : Bool :=
  rolesIntersect (getField jwt "permissions") c.writeAll

/-- Translation of `checkIfCanReadSelf`. -/
def checkIfCanReadSelf (jwt : JsVal) (c : EntityAuthConfig) : Bool :=
  rolesIntersect (getField jwt "permissions") c.readSelf

/-- Translation of `checkIfCanWriteSelf`. -/
def checkIfCanWriteSelf (jwt : JsVal) (c : EntityAuthConfig) : Bool :=
  rolesIntersect (getField jwt "permissions") c.writeSelf

/-- Error outcomes of the core, one constructor per throw site. -/
inductive Err where
  /-- "Access denied. Valid JWT token required" -/
  | jwtRequired : Err
  /-- "Access denied. You do not have permission ..." (role check failed) -/
  | permissionDenied : Err
  /-- "Acces denied." (ownership check on fetched records failed) -/
  | ownershipDenied : Err
  /-- "Wrong data type." (create payload had neither record nor records) -/
  | wrongDataType : Err
  /-- "Wrong auth config provided for object. ..." (policy validation) -/
  | wrongAuthConfig : Err
  /-- updateEach: args.records is not an array or is empty -/
  | updateEachEmptyList : Err
  /-- updateEach: a record entry is not an object or has no keys -/
  | updateEachBadRecord : Err
  /-- runtime TypeError (Object.keys applied to null) -/
  | typeError : Err
deriving DecidableEq, Repr

/-- Request parameters of one resolver invocation: `rp.args`,
    `rp.projection` and the identity claim `rp.context.user`. -/
structure ResolveParams where
  args : JsVal
  projection : JsVal
  contextUser : JsVal

/-- Arguments of a call to an auxiliary fetch resolver
    (`findById.resolve({ args, projection })`). -/
structure FetchCall where
  args : JsVal
  projection : JsVal

/-- Observable outcome of one wrapped-resolver invocation: the result or
    thrown error, the auxiliary fetch calls issued, and the resolve
    parameters passed on to the underlying resolver (empty when the call
    failed before delegation). -/
structure ResolveOutcome where
  result : Except Err JsVal
  fetchCalls : List FetchCall
  delegateCalls : List ResolveParams

/-- Per-request body of `wrapCreateAuth`: validate the claim, require a
    write permission, then stamp the owner field with the subject id onto
    every record of the payload before delegating. -/
def createAuthResolve (authConfig : EntityAuthConfig)
    (next : ResolveParams → JsVal) (rp : ResolveParams) : ResolveOutcome :=
  if !isValidJwtPayload rp.contextUser then
    ⟨.error .jwtRequired, [], []⟩
  else if !checkIfCanWriteSelf rp.contextUser authConfig
      && !checkIfCanWriteAll rp.contextUser authConfig then
    ⟨.error .permissionDenied, [], []⟩
  else if truthy (getField rp.args "records") then
    let uid := getField rp.contextUser "id"
    let stamped := mapArr (fun obj => setField obj (uidField authConfig) uid)
      (getField rp.args "records")
    let rp2 := { rp with args := setField rp.args "records" stamped }
    ⟨.ok (next rp2), [], [rp2]⟩
  else if truthy (getField rp.args "record") then
    let uid := getField rp.contextUser "id"
    let stamped := setField (getField rp.args "record") (uidField authConfig) uid
    let rp2 := { rp with args := setField rp.args "record" stamped }
    ⟨.ok (next rp2), [], [rp2]⟩
  else
    ⟨.error .wrongDataType, [], []⟩

/-- Per-request body of `authMutationByIdsEach`: write-all delegates
    unmodified; write-self batch-fetches the targeted records projecting the
    owner field and requires every fetched record to be owned by the
    subject. -/
def mutationByIdsEachResolve (authConfig : EntityAuthConfig)
    (findByIds : FetchCall → JsVal) (next : ResolveParams → JsVal)
    (rp : ResolveParams) : ResolveOutcome :=
  if !isValidJwtPayload rp.contextUser then
    ⟨.error .jwtRequired, [], []⟩
  else if checkIfCanWriteAll rp.contextUser authConfig then
    ⟨.ok (next rp), [], [rp]⟩
  else if !checkIfCanWriteSelf rp.contextUser authConfig then
    ⟨.error .permissionDenied, [], []⟩
  else
    let ids := (asArr (getField rp.args "records")).map
      (fun record => getField record "_id")
    let fc : FetchCall :=
      ⟨vObj [("_ids", vArr ids)], vObj [(uidField authConfig, vObj [])]⟩
    let foundRecords := asArr (findByIds fc)
    let uid := getField rp.contextUser "id"
    let authCount := (foundRecords.filter
      (fun item => strictEq (getField item (uidField authConfig)) uid)).length
    if authCount != foundRecords.length then
      ⟨.error .ownershipDenied, [fc], []⟩
    else
      ⟨.ok (next rp), [fc], [rp]⟩

/-- Per-request body of `wrapMutationAuth`: write-all delegates unmodified;
    write-self fetches the targeted data projecting the owner field and
    checks ownership, element-wise when the fetch returned an array
    (`foundData.length !== undefined`) and directly otherwise. -/
def mutationAuthResolve (authConfig : EntityAuthConfig)
    (findById : FetchCall → JsVal) (next : ResolveParams → JsVal)
    (rp : ResolveParams) : ResolveOutcome :=
  if !isValidJwtPayload rp.contextUser then
    ⟨.error .jwtRequired, [], []⟩
  else if checkIfCanWriteAll rp.contextUser authConfig then
    ⟨.ok (next rp), [], [rp]⟩
  else if !checkIfCanWriteSelf rp.contextUser authConfig then
    ⟨.error .permissionDenied, [], []⟩
  else
    let fc : FetchCall := ⟨rp.args, vObj [(uidField authConfig, vObj [])]⟩
    let foundData := findById fc
    let uid := getField rp.contextUser "id"
    if !strictEq (getField foundData "length") vUndef then
      let validCount := ((asArr foundData).filter
        (fun obj => strictEq (getField obj (uidField authConfig)) uid)).length
      if validCount != (asArr foundData).length then
        ⟨.error .ownershipDenied, [fc], []⟩
      else
        ⟨.ok (next rp), [fc], [rp]⟩
    else
      if !strictEq (getField foundData (uidField authConfig)) uid then
        ⟨.error .ownershipDenied, [fc], []⟩
      else
        ⟨.ok (next rp), [fc], [rp]⟩

/-- Per-request body of `wrapMutationWithFilterAuth`: write-all delegates
    unmodified; write-self injects the owner filter entry into the filter
    argument (overwriting any caller-supplied owner entry) before
    delegating. -/
def mutationWithFilterResolve (authConfig : EntityAuthConfig)
    (next : ResolveParams → JsVal) (rp : ResolveParams) : ResolveOutcome :=
  if !isValidJwtPayload rp.contextUser then
    ⟨.error .jwtRequired, [], []⟩
  else if checkIfCanWriteAll rp.contextUser authConfig then
    ⟨.ok (next rp), [], [rp]⟩
  else if !checkIfCanWriteSelf rp.contextUser authConfig then
    ⟨.error .permissionDenied, [], []⟩
  else
    let uid := getField rp.contextUser "id"
    let newFilter :=
      if truthy (getField rp.args "filter") then
        setField (getField rp.args "filter") (uidField authConfig) uid
      else
        vObj [(uidField authConfig, uid)]
    let rp2 := { rp with args := setField rp.args "filter" newFilter }
    ⟨.ok (next rp2), [], [rp2]⟩

/-- Per-request body of `authQueryWithFilterResolver`: read-all delegates
    unmodified; read-self injects the owner filter entry into the filter
    argument before delegating. -/
def queryWithFilterResolve (authConfig : EntityAuthConfig)
    (next : ResolveParams → JsVal) (rp : ResolveParams) : ResolveOutcome :=
  if !isValidJwtPayload rp.contextUser then
    ⟨.error .jwtRequired, [], []⟩
  else if checkIfCanReadAll rp.contextUser authConfig then
    ⟨.ok (next rp), [], [rp]⟩
  else if !checkIfCanReadSelf rp.contextUser authConfig then
    ⟨.error .permissionDenied, [], []⟩
  else
    let uid := getField rp.contextUser "id"
    let newFilter :=
      if !truthy (getField rp.args "filter") then
        vObj [(uidField authConfig, uid)]
      else
        setField (getField rp.args "filter") (uidField authConfig) uid
    let rp2 := { rp with args := setField rp.args "filter" newFilter }
    ⟨.ok (next rp2), [], [rp2]⟩

/-- Per-request body of `authQueryByIdsResolver`: read-all delegates
    unmodified; read-self ensures the owner field is projected, delegates,
    then keeps only the result records owned by the subject. -/
def queryByIdsResolve (authConfig : EntityAuthConfig)
    (next : ResolveParams → JsVal) (rp : ResolveParams) : ResolveOutcome :=
  if !isValidJwtPayload rp.contextUser then
    ⟨.error .jwtRequired, [], []⟩
  else if checkIfCanReadAll rp.contextUser authConfig then
    ⟨.ok (next rp), [], [rp]⟩
  else if !checkIfCanReadSelf rp.contextUser authConfig then
    ⟨.error .permissionDenied, [], []⟩
  else
    let isUserField := truthy (getField rp.projection (uidField authConfig))
    let proj2 := setField rp.projection (uidField authConfig) (vObj [])
    let rp2 := if isUserField then rp else { rp with projection := proj2 }
    let result := asArr (next rp2)
    let uid := getField rp.contextUser "id"
    ⟨.ok (vArr (result.filter
      (fun item => strictEq (getField item (uidField authConfig)) uid))), [], [rp2]⟩

/-- Per-request body of `authQueryOneResolver`: read-all delegates
    unmodified; read-self ensures the owner field is projected, delegates,
    returns null for a falsy result, and otherwise returns the result only
    when its owner field equals the subject id. -/
def queryOneResolve (authConfig : EntityAuthConfig)
    (next : ResolveParams → JsVal) (rp : ResolveParams) : ResolveOutcome :=
  if !isValidJwtPayload rp.contextUser then
    ⟨.error .jwtRequired, [], []⟩
  else if checkIfCanReadAll rp.contextUser authConfig then
    ⟨.ok (next rp), [], [rp]⟩
  else if !checkIfCanReadSelf rp.contextUser authConfig then
    ⟨.error .permissionDenied, [], []⟩
  else
    let proj2 := setField rp.projection (uidField authConfig) (vObj [])
    let rp2 :=
      if truthy (getField rp.projection (uidField authConfig)) then rp
      else { rp with projection := proj2 }
    let result := next rp2
    let uid := getField rp.contextUser "id"
    if !truthy result then
      ⟨.ok vNull, [], [rp2]⟩
    else if strictEq (getField result (uidField authConfig)) uid then
      ⟨.ok result, [], [rp2]⟩
    else
      ⟨.ok vNull, [], [rp2]⟩

/-- Translation of `validateAuthObject`: a policy without a (truthy)
    userIdField must have both self role sets empty. -/
def validateAuthObject (c : EntityAuthConfig) : Except Err Unit :=
  if userIdFieldFalsy c && (c.readSelf.length != 0 || c.writeSelf.length != 0) then
    .error .wrongAuthConfig
  else
    .ok ()

/-- Translation of `isAuthConfigImpactful`: an absent config is not
    impactful, any present config is (objects are truthy). -/
def isAuthConfigImpactful (c : Option EntityAuthConfig) : Bool :=
  c.isSome

/-- The behaviour of the unwrapped base resolver, returned unchanged when
    the policy is not impactful: its result, with no auxiliary fetches and
    the single delegate call on the untouched parameters. -/
def passthroughResolve (next : ResolveParams → JsVal) :
    ResolveParams → ResolveOutcome :=
  fun rp => ⟨.ok (next rp), [], [rp]⟩

/-- Wrap-time construction for `wrapCreateAuth`: absent policy passes the
    resolver through; a present policy is validated and the per-request
    body installed. -/
def wrapCreateAuth (next : ResolveParams → JsVal)
    (cfg : Option EntityAuthConfig) :
    Except Err (ResolveParams → ResolveOutcome) :=
  match cfg with
  | none => .ok (passthroughResolve next)
  | some authConfig =>
    match validateAuthObject authConfig with
    | .error e => .error e
    | .ok _ => .ok (createAuthResolve authConfig next)

/-- Wrap-time construction for `authMutationByIdsEach`. -/
def authMutationByIdsEach (next : ResolveParams → JsVal)
    (findByIds : FetchCall → JsVal) (cfg : Option EntityAuthConfig) :
    Except Err (ResolveParams → ResolveOutcome) :=
  match cfg with
  | none => .ok (passthroughResolve next)
  | some authConfig =>
    match validateAuthObject authConfig with
    | .error e => .error e
    | .ok _ => .ok (mutationByIdsEachResolve authConfig findByIds next)

/-- Wrap-time construction for `wrapMutationAuth`. -/
def wrapMutationAuth (next : ResolveParams → JsVal)
    (findById : FetchCall → JsVal) (cfg : Option EntityAuthConfig) :
    Except Err (ResolveParams → ResolveOutcome) :=
  match cfg with
  | none => .ok (passthroughResolve next)
  | some authConfig =>
    match validateAuthObject authConfig with
    | .error e => .error e
    | .ok _ => .ok (mutationAuthResolve authConfig findById next)

/-- Wrap-time construction for `wrapMutationWithFilterAuth` (its findById
    argument is accepted but unused, as in the source). -/
def wrapMutationWithFilterAuth (next : ResolveParams → JsVal)
    (findById : FetchCall → JsVal) (cfg : Option EntityAuthConfig) :
    Except Err (ResolveParams → ResolveOutcome) :=
  match cfg with
  | none => .ok (passthroughResolve next)
  | some authConfig =>
    match validateAuthObject authConfig with
    | .error e => .error e
    | .ok _ => .ok (mutationWithFilterResolve authConfig next)

/-- Wrap-time construction for `authQueryWithFilterResolver`. -/
def authQueryWithFilterResolver (next : ResolveParams → JsVal)
    (cfg : Option EntityAuthConfig) :
    Except Err (ResolveParams → ResolveOutcome) :=
  match cfg with
  | none => .ok (passthroughResolve next)
  | some authConfig =>
    match validateAuthObject authConfig with
    | .error e => .error e
    | .ok _ => .ok (queryWithFilterResolve authConfig next)

/-- Wrap-time construction for `authQueryByIdsResolver`. -/
def authQueryByIdsResolver (next : ResolveParams → JsVal)
    (cfg : Option EntityAuthConfig) :
    Except Err (ResolveParams → ResolveOutcome) :=
  match cfg with
  | none => .ok (passthroughResolve next)
  | some authConfig =>
    match validateAuthObject authConfig with
    | .error e => .error e
    | .ok _ => .ok (queryByIdsResolve authConfig next)

/-- Wrap-time construction for `authQueryOneResolver`. -/
def authQueryOneResolver (next : ResolveParams → JsVal)
    (cfg : Option EntityAuthConfig) :
    Except Err (ResolveParams → ResolveOutcome) :=
  match cfg with
  | none => .ok (passthroughResolve next)
  | some authConfig =>
    match validateAuthObject authConfig with
    | .error e => .error e
    | .ok _ => .ok (queryOneResolve authConfig next)

/-!
Model of `src/resolvers/updateByIdEach.ts` and of the store it drives.
The mongoose model is embedded as a list of record objects keyed by their
`_id` field; `findByIdAndUpdate` applies the document fields onto the
matching stored record, and `findById` retrieves the record (or null).
`beforeRecordMutate` is absent in the generated schema, so the candidate
document is the input record itself.
-/

/-- Keys of a value as computed by `Object.keys`: field names for objects,
    index strings for arrays, empty otherwise (JavaScript object keys are
    unique, so the field list of a well-formed object has no duplicates). -/
def objKeys : JsVal → List String
  | vObj fields => fields.map Prod.fst
  | vArr xs => (List.range xs.length).map toString
  | _ => []

/-- Truth of the JavaScript test `typeof record === "object"` (true for
    objects, arrays and null). -/
def typeofIsObject : JsVal → Bool
  | vObj _ => true
  | vArr _ => true
  | vNull => true
  | _ => false

/-- Validation of one entry of the updateEach input list: a non-object
    entry or an entry without keys is an invalid payload; on null the
    `Object.keys` call itself raises a TypeError. -/
def checkUpdateEachRecord (r : JsVal) : Except Err Unit :=
  if !typeofIsObject r then
    .error .updateEachBadRecord
  else
    match r with
    | vNull => .error .typeError
    | _ => if (objKeys r).length = 0 then .error .updateEachBadRecord else .ok ()

/-- Validation error of one entry, as an optional value. -/
def recordErr (r : JsVal) : Option Err :=
  match checkUpdateEachRecord r with
  | .error e => some e
  | .ok _ => none

/-- First validation error among the entries of the input list, if any. -/
def firstRecordError (l : List JsVal) : Option Err :=
  l.findSome? recordErr

/-- The embedded document store: a list of record objects. -/
abbrev Store := List JsVal

/-- Store model of `findById`: the first record whose `_id` strictly equals
    the given id, or null when absent. -/
def findByIdStore (store : Store) (idv : JsVal) : JsVal :=
  (store.find? (fun r => strictEq (getField r "_id") idv)).getD vNull

/-- Application of an update document onto a stored record
    (field-wise set, as `findByIdAndUpdate` does). -/
def mergeUpdate (r doc : JsVal) : JsVal :=
  match doc with
  | vObj fields => fields.foldl (fun acc p => setField acc p.1 p.2) r
  | _ => r

/-- Store model of `findByIdAndUpdate doc._id doc`: every stored record
    whose `_id` matches the document receives its fields. -/
def updateStoreById (store : Store) (doc : JsVal) : Store :=
  store.map (fun r =>
    if strictEq (getField r "_id") (getField doc "_id") then mergeUpdate r doc
    else r)

/-- The per-record update-then-refetch loop of updateEach, threading the
    store left to right: for each input document, apply the update and then
    read the stored record by the document's id. The results come back in
    input order (`Promise.all` preserves positional order). -/
def runEachUpdate : Store → List JsVal → List JsVal × Store
  | store, [] => ([], store)
  | store, doc :: rest =>
    let store1 := updateStoreById store doc
    let rec1 := findByIdStore store1 (getField doc "_id")
    let step := runEachUpdate store1 rest
    (rec1 :: step.1, step.2)

/-- Result payload of the updateEach resolver. -/
structure UpdateEachPayload where
  records : List JsVal
  updatedCount : Nat

/-- The `resolve` body of `updateByIdEach`, over the embedded store: reject
    a non-array or empty `args.records` and any invalid entry before
    touching the store, then run the per-record update and refetch loop and
    report the number of attempted updates. Returns the outcome together
    with the final store. -/
def updateByIdEachResolve (store : Store) (argsRecords : JsVal) :
    Except Err UpdateEachPayload × Store :=
  match argsRecords with
  | vArr recordData =>
    if recordData.length = 0 then
      (.error .updateEachEmptyList, store)
    else
      match firstRecordError recordData with
      | some e => (.error e, store)
      | none =>
        let step := runEachUpdate store recordData
        (.ok ⟨step.1, recordData.length⟩, step.2)
  | _ => (.error .updateEachEmptyList, store)

/-- Store model of the external `findByIds` resolver used by the
    batch-by-ids-each wrapper: the records whose `_id` strictly equals one
    of the requested ids. -/
def findByIdsStoreFetch (store : Store) (fc : FetchCall) : JsVal :=
  vArr (store.filter (fun r =>
    (asArr (getField fc.args "_ids")).any
      (fun idv => strictEq (getField r "_id") idv)))

/-!
Helper lemmas about object field update, list filtering and the batch
update loop.
-/

theorem lookupField_cons_pos (p : String × JsVal) (t : List (String × JsVal))
    (k : String) (h : p.1 = k) : lookupField (p :: t) k = p.2 := by
  rw [lookupField, List.find?_cons_of_pos _ (by simp [h])]

theorem lookupField_cons_neg (p : String × JsVal) (t : List (String × JsVal))
    (k : String) (h : ¬ p.1 = k) : lookupField (p :: t) k = lookupField t k := by
  rw [lookupField, List.find?_cons_of_neg _ (by simp [h]), lookupField]

theorem lookupField_map_set (l : List (String × JsVal)) (k : String) (v : JsVal)
    (h : l.any (fun p => p.1 == k) = true) :
    lookupField (l.map (fun p => if p.1 == k then (k, v) else p)) k = v := by
  induction l with
  | nil => exact absurd h (by simp)
  | cons p t ih =>
    rw [List.map_cons]
    by_cases hp : p.1 = k
    · have hh : (if p.1 == k then (k, v) else p) = (k, v) := by simp [hp]
      rw [hh, lookupField_cons_pos _ _ _ rfl]
    · have hh : (if p.1 == k then (k, v) else p) = p := by simp [hp]
      rw [hh, lookupField_cons_neg _ _ _ hp]
      apply ih
      simp only [List.any_cons, Bool.or_eq_true] at h
      rcases h with h1 | h2
      · exact absurd (by simpa using h1) hp
      · exact h2

theorem lookupField_append_set (l : List (String × JsVal)) (k : String) (v : JsVal)
    (h : l.any (fun p => p.1 == k) = false) :
    lookupField (l ++ [(k, v)]) k = v := by
  induction l with
  | nil => rw [List.nil_append, lookupField_cons_pos _ _ _ rfl]
  | cons p t ih =>
    simp only [List.any_cons, Bool.or_eq_false_iff] at h
    rw [List.cons_append, lookupField_cons_neg _ _ _ (by simpa using h.1)]
    exact ih h.2

theorem lookupField_setFields_self (l : List (String × JsVal)) (k : String) (v : JsVal) :
    lookupField (setFields l k v) k = v := by
  by_cases h : l.any (fun p => p.1 == k) = true
  · rw [setFields, if_pos h]
    exact lookupField_map_set l k v h
  · rw [setFields, if_neg h]
    exact lookupField_append_set l k v (Bool.eq_false_iff.mpr h)

theorem lookupField_map_set_ne (l : List (String × JsVal)) (k k' : String) (v : JsVal)
    (h : k' ≠ k) :
    lookupField (l.map (fun p => if p.1 == k then (k, v) else p)) k' = lookupField l k' := by
  induction l with
  | nil => rfl
  | cons p t ih =>
    rw [List.map_cons]
    by_cases hp : p.1 = k
    · have hh : (if p.1 == k then (k, v) else p) = (k, v) := by simp [hp]
      have hk1 : ¬ ((k, v) : String × JsVal).1 = k' := fun hh2 => h hh2.symm
      have hk2 : ¬ p.1 = k' := by
        intro hh2
        rw [hp] at hh2
        exact h hh2.symm
      rw [hh, lookupField_cons_neg _ _ _ hk1, lookupField_cons_neg _ _ _ hk2]
      exact ih
    · have hh : (if p.1 == k then (k, v) else p) = p := by simp [hp]
      rw [hh]
      by_cases hpk : p.1 = k'
      · rw [lookupField_cons_pos _ _ _ hpk, lookupField_cons_pos _ _ _ hpk]
      · rw [lookupField_cons_neg _ _ _ hpk, lookupField_cons_neg _ _ _ hpk]
        exact ih

theorem lookupField_append_ne (l : List (String × JsVal)) (k k' : String) (v : JsVal)
    (h : k' ≠ k) :
    lookupField (l ++ [(k, v)]) k' = lookupField l k' := by
  induction l with
  | nil =>
    rw [List.nil_append, lookupField_cons_neg _ _ _ (fun hh => h hh.symm)]
  | cons p t ih =>
    rw [List.cons_append]
    by_cases hpk : p.1 = k'
    · rw [lookupField_cons_pos _ _ _ hpk, lookupField_cons_pos _ _ _ hpk]
    · rw [lookupField_cons_neg _ _ _ hpk, lookupField_cons_neg _ _ _ hpk]
      exact ih

theorem lookupField_setFields_ne (l : List (String × JsVal)) (k k' : String) (v : JsVal)
    (h : k' ≠ k) :
    lookupField (setFields l k v) k' = lookupField l k' := by
  by_cases hany : l.any (fun p => p.1 == k) = true
  · rw [setFields, if_pos hany]
    exact lookupField_map_set_ne l k k' v h
  · rw [setFields, if_neg hany]
    exact lookupField_append_ne l k k' v h

theorem any_map_set (l : List (String × JsVal)) (k : String) (v : JsVal) :
    ((l.map (fun p => if p.1 == k then (k, v) else p)).any (fun p => p.1 == k)) =
      (l.any (fun p => p.1 == k)) := by
  induction l with
  | nil => rfl
  | cons p t ih =>
    rw [List.map_cons, List.any_cons, List.any_cons, ih]
    congr 1
    by_cases hp : p.1 = k
    · simp [hp]
    · simp [hp]

theorem map_set_map_set (l : List (String × JsVal)) (k : String) (w v : JsVal) :
    ((l.map (fun p => if p.1 == k then (k, w) else p)).map
        (fun p => if p.1 == k then (k, v) else p)) =
      l.map (fun p => if p.1 == k then (k, v) else p) := by
  rw [List.map_map]
  apply List.map_congr_left
  intro p _
  by_cases hp : p.1 = k
  · simp [Function.comp, hp]
  · simp [Function.comp, hp]

theorem setFields_setFields (l : List (String × JsVal)) (k : String) (w v : JsVal) :
    setFields (setFields l k w) k v = setFields l k v := by
  by_cases h : l.any (fun p => p.1 == k) = true
  · have hany : ((l.map (fun p => if p.1 == k then (k, w) else p)).any
        (fun p => p.1 == k)) = true := by
      rw [any_map_set]
      exact h
    have e1 : setFields l k w = l.map (fun p => if p.1 == k then (k, w) else p) := by
      rw [setFields, if_pos h]
    have e2 : setFields l k v = l.map (fun p => if p.1 == k then (k, v) else p) := by
      rw [setFields, if_pos h]
    rw [e1, e2, setFields, if_pos hany]
    exact map_set_map_set l k w v
  · have e1 : setFields l k w = l ++ [(k, w)] := by rw [setFields, if_neg h]
    have e2 : setFields l k v = l ++ [(k, v)] := by rw [setFields, if_neg h]
    have hany : ((l ++ [(k, w)]).any (fun p => p.1 == k)) = true := by
      simp [List.any_append]
    rw [e1, e2, setFields, if_pos hany, List.map_append]
    have h' : ∀ p ∈ l, ¬ ((p.1 == k) = true) := by
      intro p hp hpk
      exact h (List.any_eq_true.mpr ⟨p, hp, hpk⟩)
    have hl : l.map (fun p => if p.1 == k then (k, v) else p) = l := by
      have hid : l.map (fun p => if p.1 == k then (k, v) else p) = l.map id := by
        apply List.map_congr_left
        intro p hp
        rw [if_neg (h' p hp)]
        rfl
      rw [hid, List.map_id]
    rw [hl]
    simp

theorem getField_setField_self (l : List (String × JsVal)) (k : String) (v : JsVal) :
    getField (setField (vObj l) k v) k = v := by
  rw [setField, getField]
  exact lookupField_setFields_self l k v

theorem getField_setField_ne (l : List (String × JsVal)) (k k' : String) (v : JsVal)
    (h : k' ≠ k) :
    getField (setField (vObj l) k v) k' = getField (vObj l) k' := by
  rw [setField, getField, getField]
  exact lookupField_setFields_ne l k k' v h

theorem setField_setField (l : List (String × JsVal)) (k : String) (w v : JsVal) :
    setField (setField (vObj l) k w) k v = setField (vObj l) k v := by
  rw [setField, setField, setField]
  rw [setFields_setFields]

theorem length_filter_lt_of_mem_not {α : Type} (l : List α) (p : α → Bool) (x : α) :
    x ∈ l → p x = false → (l.filter p).length < l.length := by
  induction l with
  | nil => intro hx; cases hx
  | cons a t ih =>
    intro hx hp
    rcases List.mem_cons.mp hx with rfl | hxt
    · rw [List.filter_cons_of_neg (by simp [hp]), List.length_cons]
      exact Nat.lt_succ_of_le (List.length_filter_le _ _)
    · by_cases ha : p a = true
      · rw [List.filter_cons_of_pos ha, List.length_cons, List.length_cons]
        exact Nat.succ_lt_succ (ih hxt hp)
      · rw [List.filter_cons_of_neg ha, List.length_cons]
        exact Nat.lt_succ_of_lt (ih hxt hp)

theorem firstRecordError_isSome (l : List JsVal) (r : JsVal) (e : Err) :
    r ∈ l → checkUpdateEachRecord r = .error e →
    (firstRecordError l).isSome = true := by
  induction l with
  | nil => intro hr; cases hr
  | cons a t ih =>
    intro hr he
    cases hfa : recordErr a with
    | some e2 =>
      rw [firstRecordError, List.findSome?_cons_of_isSome _ (by simp [hfa]), hfa]
      rfl
    | none =>
      rcases List.mem_cons.mp hr with rfl | hrt
      · rw [recordErr, he] at hfa
        cases hfa
      · rw [firstRecordError, List.findSome?_cons_of_isNone _ (by simp [hfa])]
        exact ih hrt he

theorem firstRecordError_eq_none (l : List JsVal) :
    (∀ r ∈ l, checkUpdateEachRecord r = .ok ()) → firstRecordError l = none := by
  induction l with
  | nil => intro _; rfl
  | cons a t ih =>
    intro h
    have ha : recordErr a = none := by
      rw [recordErr, h a (List.mem_cons_self a t)]
    rw [firstRecordError, List.findSome?_cons_of_isNone _ (by simp [ha])]
    exact ih (fun r hr => h r (List.mem_cons_of_mem a hr))

theorem runEachUpdate_length (store : Store) (l : List JsVal) :
    (runEachUpdate store l).1.length = l.length := by
  induction l generalizing store with
  | nil => rfl
  | cons doc rest ih => simp [runEachUpdate, ih]

theorem runEachUpdate_getElem? (store : Store) (l : List JsVal) (i : ℕ) :
    (runEachUpdate store l).1[i]? =
      (l[i]?).map (fun doc =>
        findByIdStore (updateStoreById (runEachUpdate store (l.take i)).2 doc)
          (getField doc "_id")) := by
  induction l generalizing store i with
  | nil => simp [runEachUpdate]
  | cons doc rest ih =>
    cases i with
    | zero => simp [runEachUpdate]
    | succ n => simpa [runEachUpdate] using ih (updateStoreById store doc) n

/-!
Concrete fixtures used by scenario theorems and witnesses.
-/

/-- Policy granting only self access to role user, owner field ownerId. -/
def selfPolicy : EntityAuthConfig :=
  { readAll := [], writeAll := [], readSelf := ["user"], writeSelf := ["user"],
    userIdField := some "ownerId" }

/-- Policy granting all access to role admin, owner field ownerId. -/
def adminPolicy : EntityAuthConfig :=
  { readAll := ["admin"], writeAll := ["admin"], readSelf := [], writeSelf := [],
    userIdField := some "ownerId" }

/-- Identity claim of subject 7 holding role user. -/
def userClaim : JsVal :=
  vObj [("id", vNum 7), ("permissions", vArr [vStr "user"])]

/-- Identity claim of subject 7 holding role admin. -/
def adminClaim : JsVal :=
  vObj [("id", vNum 7), ("permissions", vArr [vStr "admin"])]

/-- Invalidity of a claim in the sense of the identity validator: the claim
    value is falsy (missing), its subject id is falsy, or its roles value is
    not an array of strings. -/
theorem isValidJwtPayload_eq_false (u : JsVal)
    (h : truthy u = false ∨ truthy (getField u "id") = false ∨
      isArrayOfStrings (getField u "permissions") = false) :
    isValidJwtPayload u = false := by
  rw [isValidJwtPayload]
  rcases h with h | h | h
  · simp [h]
  · by_cases ht : truthy u <;> simp [ht, h]
  · by_cases ht : truthy u <;> simp [ht, h]

/-- C5: under the policy readAll = writeAll = empty, readSelf = writeSelf =
    [user], ownerField = ownerId, and the claim subject 7 with role user,
    the single-record query wrapper returns null when the underlying
    resolver yields a record with ownerId 9, and returns the record
    unchanged when it yields a record with ownerId 7. -/
theorem queryOne_self_scope_scenario :
    (queryOneResolve selfPolicy
        (fun _ => vObj [("id", vNum 1), ("ownerId", vNum 9)])
        ⟨vObj [("_id", vNum 1)], vObj [], userClaim⟩).result = .ok vNull ∧
    (queryOneResolve selfPolicy
        (fun _ => vObj [("id", vNum 2), ("ownerId", vNum 7)])
        ⟨vObj [("_id", vNum 2)], vObj [], userClaim⟩).result =
      .ok (vObj [("id", vNum 2), ("ownerId", vNum 7)]) := by
  exact ⟨rfl, rfl⟩

/-- C8: every one of the seven auth wrappers, constructed over an absent
    policy, returns the passthrough operation: the original resolver result,
    no auxiliary fetch, and one delegate call on the unmodified request
    parameters. -/
theorem absent_policy_passthrough (next : ResolveParams → JsVal)
    (findById findByIds : FetchCall → JsVal) (rp : ResolveParams) :
    wrapCreateAuth next none = .ok (passthroughResolve next) ∧
    authMutationByIdsEach next findByIds none = .ok (passthroughResolve next) ∧
    wrapMutationAuth next findById none = .ok (passthroughResolve next) ∧
    wrapMutationWithFilterAuth next findById none = .ok (passthroughResolve next) ∧
    authQueryWithFilterResolver next none = .ok (passthroughResolve next) ∧
    authQueryByIdsResolver next none = .ok (passthroughResolve next) ∧
    authQueryOneResolver next none = .ok (passthroughResolve next) ∧
    passthroughResolve next rp = ⟨.ok (next rp), [], [rp]⟩ := by
  exact ⟨rfl, rfl, rfl, rfl, rfl, rfl, rfl, rfl⟩

/-- C3: a request whose identity claim is invalid (missing claim, falsy
    subject id, or roles not an array of strings) makes every one of the
    seven auth wrappers fail with the authentication error, with no fetch
    call and no delegate call. -/
theorem invalid_claim_all_wrappers_auth_required (cfg : EntityAuthConfig)
    (findById findByIds : FetchCall → JsVal) (next : ResolveParams → JsVal)
    (rp : ResolveParams)
    (hinv : truthy rp.contextUser = false ∨
      truthy (getField rp.contextUser "id") = false ∨
      isArrayOfStrings (getField rp.contextUser "permissions") = false) :
    createAuthResolve cfg next rp = ⟨.error .jwtRequired, [], []⟩ ∧
    mutationByIdsEachResolve cfg findByIds next rp = ⟨.error .jwtRequired, [], []⟩ ∧
    mutationAuthResolve cfg findById next rp = ⟨.error .jwtRequired, [], []⟩ ∧
    mutationWithFilterResolve cfg next rp = ⟨.error .jwtRequired, [], []⟩ ∧
    queryWithFilterResolve cfg next rp = ⟨.error .jwtRequired, [], []⟩ ∧
    queryByIdsResolve cfg next rp = ⟨.error .jwtRequired, [], []⟩ ∧
    queryOneResolve cfg next rp = ⟨.error .jwtRequired, [], []⟩ := by
  have hv := isValidJwtPayload_eq_false rp.contextUser hinv
  refine ⟨?_, ?_, ?_, ?_, ?_, ?_, ?_⟩ <;>
    simp [createAuthResolve, mutationByIdsEachResolve, mutationAuthResolve,
      mutationWithFilterResolve, queryWithFilterResolve, queryByIdsResolve,
      queryOneResolve, hv]

/-- Witness for C3 at a concrete input: the undefined claim is invalid and
    the create wrapper rejects it with the authentication error. -/
theorem invalid_claim_all_wrappers_auth_required_witness :
    (truthy vUndef = false ∨
      truthy (getField vUndef "id") = false ∨
      isArrayOfStrings (getField vUndef "permissions") = false) ∧
    createAuthResolve selfPolicy (fun _ => vNull)
      ⟨vObj [], vObj [], vUndef⟩ = ⟨.error .jwtRequired, [], []⟩ := by
  refine ⟨Or.inl rfl, ?_⟩
  exact (invalid_claim_all_wrappers_auth_required selfPolicy (fun _ => vNull)
    (fun _ => vNull) (fun _ => vNull) ⟨vObj [], vObj [], vUndef⟩ (Or.inl rfl)).1

/-- C1 counterexample: under a writeAll-only admin claim (subject 7), the
    create wrapper delegates a record whose owner field has been overwritten
    to 7, although the caller supplied 99 — the claim that create applies no
    owner-field stamping for writeAll claims is false. -/
theorem create_stamps_despite_writeAll :
    (createAuthResolve adminPolicy (fun _ => vNull)
        ⟨vObj [("record", vObj [("name", vStr "x"), ("ownerId", vNum 99)])],
          vObj [], adminClaim⟩).delegateCalls.map
      (fun q => getField (getField q.args "record") "ownerId") = [vNum 7] := by
  rfl

/-- C1 (amended): for every claim holding a writeAll role and every request,
    the id-based, filter-based and batch mutation wrappers delegate to the
    underlying resolver with the request unmodified and no fetch call,
    regardless of writeSelf; the create wrapper, however, still stamps the
    owner field with the subject id, on a single-record payload and on every
    record of a multi-record payload. -/
theorem writeAll_mutations_delegate_create_stamps (cfg : EntityAuthConfig)
    (findById findByIds : FetchCall → JsVal) (next : ResolveParams → JsVal)
    (rp : ResolveParams)
    (hv : isValidJwtPayload rp.contextUser = true)
    (hall : checkIfCanWriteAll rp.contextUser cfg = true) :
    mutationAuthResolve cfg findById next rp = ⟨.ok (next rp), [], [rp]⟩ ∧
    mutationWithFilterResolve cfg next rp = ⟨.ok (next rp), [], [rp]⟩ ∧
    mutationByIdsEachResolve cfg findByIds next rp = ⟨.ok (next rp), [], [rp]⟩ ∧
    (∀ l : List (String × JsVal), getField rp.args "record" = vObj l →
      truthy (getField rp.args "records") = false →
      ∃ rp2, createAuthResolve cfg next rp = ⟨.ok (next rp2), [], [rp2]⟩ ∧
        getField (getField rp2.args "record") (uidField cfg) =
          getField rp.contextUser "id") ∧
    (∀ ls : List (List (String × JsVal)),
      getField rp.args "records" = vArr (ls.map vObj) →
      ∃ rp2, createAuthResolve cfg next rp = ⟨.ok (next rp2), [], [rp2]⟩ ∧
        ∀ rec2 ∈ asArr (getField rp2.args "records"),
          getField rec2 (uidField cfg) = getField rp.contextUser "id") := by
  have h2 : (!checkIfCanWriteSelf rp.contextUser cfg
      && !checkIfCanWriteAll rp.contextUser cfg) = false := by
    simp [hall]
  refine ⟨?_, ?_, ?_, ?_, ?_⟩
  · simp [mutationAuthResolve, hv, hall]
  · simp [mutationWithFilterResolve, hv, hall]
  · simp [mutationByIdsEachResolve, hv, hall]
  · intro l hrec hrecs
    obtain ⟨al, hal⟩ : ∃ al, rp.args = vObj al := by
      cases harg : rp.args with
      | vObj al => exact ⟨al, rfl⟩
      | vUndef => rw [harg] at hrec; simp [getField] at hrec
      | vNull => rw [harg] at hrec; simp [getField] at hrec
      | vBool b => rw [harg] at hrec; simp [getField] at hrec
      | vNum n => rw [harg] at hrec; simp [getField] at hrec
      | vStr s => rw [harg] at hrec; simp [getField] at hrec
      | vArr xs => rw [harg] at hrec; simp [getField] at hrec
    have htr : truthy (getField rp.args "record") = true := by rw [hrec]; rfl
    refine ⟨⟨setField (vObj al) "record"
      (setField (vObj l) (uidField cfg) (getField rp.contextUser "id")),
      rp.projection, rp.contextUser⟩, ?_, ?_⟩
    · simp [createAuthResolve, hv, h2, hrecs, htr, hal, hrec]
      rw [← hal, hrec]
      rw [if_neg (by rw [hrecs]; exact Bool.false_ne_true)]
      simp [truthy]
    · rw [getField_setField_self, getField_setField_self]
  · intro ls hrecs2
    obtain ⟨al, hal⟩ : ∃ al, rp.args = vObj al := by
      cases harg : rp.args with
      | vObj al => exact ⟨al, rfl⟩
      | vUndef => rw [harg] at hrecs2; simp [getField] at hrecs2
      | vNull => rw [harg] at hrecs2; simp [getField] at hrecs2
      | vBool b => rw [harg] at hrecs2; simp [getField] at hrecs2
      | vNum n => rw [harg] at hrecs2; simp [getField] at hrecs2
      | vStr s => rw [harg] at hrecs2; simp [getField] at hrecs2
      | vArr xs => rw [harg] at hrecs2; simp [getField] at hrecs2
    have htr : truthy (getField rp.args "records") = true := by rw [hrecs2]; rfl
    refine ⟨⟨setField (vObj al) "records"
      (mapArr (fun obj => setField obj (uidField cfg) (getField rp.contextUser "id"))
        (vArr (ls.map vObj))),
      rp.projection, rp.contextUser⟩, ?_, ?_⟩
    · simp [createAuthResolve, hv, h2, htr, hal, hrecs2]
      rw [← hal, hrecs2]
      rw [if_pos (show truthy (vArr (ls.map vObj)) = true by rfl)]
    · intro rec2 hrec2
      rw [getField_setField_self] at hrec2
      have hrec3 : rec2 ∈ (ls.map vObj).map
          (fun obj => setField obj (uidField cfg) (getField rp.contextUser "id")) :=
        hrec2
      obtain ⟨x, hx, hxe⟩ := List.mem_map.mp hrec3
      obtain ⟨lr, hlr, hlre⟩ := List.mem_map.mp hx
      rw [← hxe, ← hlre]
      exact getField_setField_self lr (uidField cfg) _

/-- Witness for C1 (amended) at a concrete input: admin claim; the id-based
    mutation wrapper delegates a remove-by-id request unmodified, and the
    create wrapper stamps every record of a batch payload with subject 7. -/
theorem writeAll_mutations_delegate_create_stamps_witness :
    isValidJwtPayload adminClaim = true ∧
    checkIfCanWriteAll adminClaim adminPolicy = true ∧
    mutationAuthResolve adminPolicy (fun _ => vNull) (fun _ => vStr "done")
      ⟨vObj [("_id", vNum 3)], vObj [], adminClaim⟩ =
      ⟨.ok (vStr "done"), [],
        [⟨vObj [("_id", vNum 3)], vObj [], adminClaim⟩]⟩ ∧
    (∃ rp2, createAuthResolve adminPolicy (fun _ => vStr "done")
        ⟨vObj [("records", vArr [vObj [("name", vStr "x")]])], vObj [], adminClaim⟩ =
        ⟨.ok (vStr "done"), [], [rp2]⟩ ∧
      ∀ rec2 ∈ asArr (getField rp2.args "records"),
        getField rec2 "ownerId" = vNum 7) := by
  refine ⟨rfl, rfl, ?_, ?_⟩
  · exact (writeAll_mutations_delegate_create_stamps adminPolicy (fun _ => vNull)
      (fun _ => vNull) (fun _ => vStr "done")
      ⟨vObj [("_id", vNum 3)], vObj [], adminClaim⟩ rfl rfl).1
  · exact ((writeAll_mutations_delegate_create_stamps adminPolicy (fun _ => vNull)
      (fun _ => vNull) (fun _ => vStr "done")
      ⟨vObj [("records", vArr [vObj [("name", vStr "x")]])], vObj [], adminClaim⟩
      rfl rfl).2.2.2.2 [[("name", vStr "x")]] rfl)

/-- Policy declaring self access without an owner field (malformed). -/
def badPolicy : EntityAuthConfig :=
  { readAll := [], writeAll := [], readSelf := ["user"], writeSelf := [],
    userIdField := none }

/-- C2: under a valid claim with writeSelf but not writeAll, when the
    pre-fetch of the id-based mutation wrapper returns a single record whose
    owner field differs from the subject id, or a batch containing such a
    record, the wrapper fails with the ownership error and never invokes the
    underlying update/remove resolver. -/
theorem writeSelf_id_mutation_owner_mismatch_denied (cfg : EntityAuthConfig)
    (findById : FetchCall → JsVal) (next : ResolveParams → JsVal)
    (rp : ResolveParams)
    (hv : isValidJwtPayload rp.contextUser = true)
    (hself : checkIfCanWriteSelf rp.contextUser cfg = true)
    (hall : checkIfCanWriteAll rp.contextUser cfg = false)
    (hmis :
      (strictEq (getField (findById ⟨rp.args, vObj [(uidField cfg, vObj [])]⟩) "length")
          vUndef = true ∧
        strictEq
          (getField (findById ⟨rp.args, vObj [(uidField cfg, vObj [])]⟩) (uidField cfg))
          (getField rp.contextUser "id") = false) ∨
      (∃ x ∈ asArr (findById ⟨rp.args, vObj [(uidField cfg, vObj [])]⟩),
        strictEq (getField x (uidField cfg)) (getField rp.contextUser "id") = false)) :
    mutationAuthResolve cfg findById next rp =
      ⟨.error .ownershipDenied, [⟨rp.args, vObj [(uidField cfg, vObj [])]⟩], []⟩ := by
  rcases hmis with ⟨hlen, hown⟩ | ⟨x, hx, hown⟩
  · simp [mutationAuthResolve, hv, hself, hall, hlen, hown]
  · obtain ⟨xs, hfd⟩ : ∃ xs,
        findById ⟨rp.args, vObj [(uidField cfg, vObj [])]⟩ = vArr xs := by
      cases hfd2 : findById ⟨rp.args, vObj [(uidField cfg, vObj [])]⟩ with
      | vArr xs => exact ⟨xs, rfl⟩
      | vUndef => rw [hfd2] at hx; simp [asArr] at hx
      | vNull => rw [hfd2] at hx; simp [asArr] at hx
      | vBool b => rw [hfd2] at hx; simp [asArr] at hx
      | vNum n => rw [hfd2] at hx; simp [asArr] at hx
      | vStr s => rw [hfd2] at hx; simp [asArr] at hx
      | vObj fs => rw [hfd2] at hx; simp [asArr] at hx
    rw [hfd] at hx
    have hxmem : x ∈ xs := by simpa [asArr] using hx
    have hlen : strictEq (getField (vArr xs) "length") vUndef = false := by
      simp [getField, strictEq]
    have hlt : ((xs.filter (fun obj =>
        strictEq (getField obj (uidField cfg)) (getField rp.contextUser "id"))).length)
          < xs.length :=
      length_filter_lt_of_mem_not xs _ x hxmem hown
    have hne : (((xs.filter (fun obj =>
        strictEq (getField obj (uidField cfg)) (getField rp.contextUser "id"))).length)
        != xs.length) = true :=
      by simpa using Nat.ne_of_lt hlt
    simp [mutationAuthResolve, hv, hself, hall, hfd, hlen, asArr, hne]

/-- Witness for C2 at a concrete input: self policy, subject 7, target
    record owned by 9; the id-based mutation wrapper denies and never
    delegates. -/
theorem writeSelf_id_mutation_owner_mismatch_denied_witness :
    isValidJwtPayload userClaim = true ∧
    checkIfCanWriteSelf userClaim selfPolicy = true ∧
    checkIfCanWriteAll userClaim selfPolicy = false ∧
    mutationAuthResolve selfPolicy
      (fun _ => vObj [("_id", vNum 1), ("ownerId", vNum 9)]) (fun _ => vStr "ran")
      ⟨vObj [("_id", vNum 1)], vObj [], userClaim⟩ =
      ⟨.error .ownershipDenied,
        [⟨vObj [("_id", vNum 1)], vObj [("ownerId", vObj [])]⟩], []⟩ := by
  refine ⟨rfl, rfl, rfl, ?_⟩
  exact writeSelf_id_mutation_owner_mismatch_denied selfPolicy
    (fun _ => vObj [("_id", vNum 1), ("ownerId", vNum 9)]) (fun _ => vStr "ran")
    ⟨vObj [("_id", vNum 1)], vObj [], userClaim⟩ rfl rfl rfl
    (Or.inl ⟨rfl, rfl⟩)

/-- C6: for a present policy whose owner field is unset (falsy) while
    readSelf or writeSelf is non-empty, constructing any of the seven auth
    wrappers fails with the configuration error at wrap time, before any
    request is served; for every other policy, construction succeeds. -/
theorem policy_validation_at_wrap_time (cfg : EntityAuthConfig)
    (next : ResolveParams → JsVal) (findById findByIds : FetchCall → JsVal) :
    (userIdFieldFalsy cfg = true ∧ (cfg.readSelf ≠ [] ∨ cfg.writeSelf ≠ []) →
      wrapCreateAuth next (some cfg) = .error .wrongAuthConfig ∧
      authMutationByIdsEach next findByIds (some cfg) = .error .wrongAuthConfig ∧
      wrapMutationAuth next findById (some cfg) = .error .wrongAuthConfig ∧
      wrapMutationWithFilterAuth next findById (some cfg) = .error .wrongAuthConfig ∧
      authQueryWithFilterResolver next (some cfg) = .error .wrongAuthConfig ∧
      authQueryByIdsResolver next (some cfg) = .error .wrongAuthConfig ∧
      authQueryOneResolver next (some cfg) = .error .wrongAuthConfig) ∧
    (¬(userIdFieldFalsy cfg = true ∧ (cfg.readSelf ≠ [] ∨ cfg.writeSelf ≠ [])) →
      (wrapCreateAuth next (some cfg)).isOk = true ∧
      (authMutationByIdsEach next findByIds (some cfg)).isOk = true ∧
      (wrapMutationAuth next findById (some cfg)).isOk = true ∧
      (wrapMutationWithFilterAuth next findById (some cfg)).isOk = true ∧
      (authQueryWithFilterResolver next (some cfg)).isOk = true ∧
      (authQueryByIdsResolver next (some cfg)).isOk = true ∧
      (authQueryOneResolver next (some cfg)).isOk = true) := by
  constructor
  · rintro ⟨h1, h2⟩
    have hvv : validateAuthObject cfg = .error .wrongAuthConfig := by
      rw [validateAuthObject, if_pos]
      rw [h1, Bool.true_and, Bool.or_eq_true, bne_iff_ne, bne_iff_ne]
      exact h2.imp (fun hne hh => hne (List.length_eq_zero.mp hh))
        (fun hne hh => hne (List.length_eq_zero.mp hh))
    exact ⟨by simp [wrapCreateAuth, hvv], by simp [authMutationByIdsEach, hvv],
      by simp [wrapMutationAuth, hvv], by simp [wrapMutationWithFilterAuth, hvv],
      by simp [authQueryWithFilterResolver, hvv], by simp [authQueryByIdsResolver, hvv],
      by simp [authQueryOneResolver, hvv]⟩
  · intro h
    have hvv : validateAuthObject cfg = .ok () := by
      rw [validateAuthObject, if_neg]
      intro hc
      apply h
      simp only [Bool.and_eq_true, Bool.or_eq_true, bne_iff_ne] at hc
      exact ⟨hc.1, hc.2.imp (fun hne hl => hne (by rw [hl]; rfl))
        (fun hne hl => hne (by rw [hl]; rfl))⟩
    exact ⟨by simp [wrapCreateAuth, hvv, Except.isOk, Except.toBool],
      by simp [authMutationByIdsEach, hvv, Except.isOk, Except.toBool],
      by simp [wrapMutationAuth, hvv, Except.isOk, Except.toBool],
      by simp [wrapMutationWithFilterAuth, hvv, Except.isOk, Except.toBool],
      by simp [authQueryWithFilterResolver, hvv, Except.isOk, Except.toBool],
      by simp [authQueryByIdsResolver, hvv, Except.isOk, Except.toBool],
      by simp [authQueryOneResolver, hvv, Except.isOk, Except.toBool]⟩

/-- Witness for C6 at a concrete input: a policy with readSelf = [user] and
    no owner field makes create-wrapper construction fail with the
    configuration error. -/
theorem policy_validation_at_wrap_time_witness :
    (userIdFieldFalsy badPolicy = true ∧
      (badPolicy.readSelf ≠ [] ∨ badPolicy.writeSelf ≠ [])) ∧
    wrapCreateAuth (fun _ => vNull) (some badPolicy) = .error .wrongAuthConfig := by
  refine ⟨⟨rfl, Or.inl (by simp [badPolicy])⟩, ?_⟩
  exact ((policy_validation_at_wrap_time badPolicy (fun _ => vNull)
    (fun _ => vNull) (fun _ => vNull)).1
    ⟨rfl, Or.inl (by simp [badPolicy])⟩).1

/-- C10: in the batch-by-ids-each wrapper under a writeSelf-only claim, the
    ownership check inspects only the records actually returned by the batch
    fetch: when no targeted id matches any stored record, the fetch returns
    the empty list, the batch passes authorization, and the underlying
    mutation is invoked. -/
theorem byIdsEach_nonexistent_ids_pass (cfg : EntityAuthConfig) (store : Store)
    (next : ResolveParams → JsVal) (rp : ResolveParams)
    (hv : isValidJwtPayload rp.contextUser = true)
    (hself : checkIfCanWriteSelf rp.contextUser cfg = true)
    (hall : checkIfCanWriteAll rp.contextUser cfg = false)
    (hnone : ∀ r ∈ store, ∀ record ∈ asArr (getField rp.args "records"),
      strictEq (getField r "_id") (getField record "_id") = false) :
    (mutationByIdsEachResolve cfg (findByIdsStoreFetch store) next rp).result =
      .ok (next rp) ∧
    (mutationByIdsEachResolve cfg (findByIdsStoreFetch store) next rp).delegateCalls
      = [rp] := by
  have hfetch : findByIdsStoreFetch store
      ⟨vObj [("_ids", vArr ((asArr (getField rp.args "records")).map
        (fun record => getField record "_id")))], vObj [(uidField cfg, vObj [])]⟩ =
      vArr [] := by
    have hfl : store.filter (fun r =>
        (asArr (getField (vObj [("_ids",
          vArr ((asArr (getField rp.args "records")).map
            (fun record => getField record "_id")))]) "_ids")).any
          (fun idv => strictEq (getField r "_id") idv)) = [] := by
      rw [List.filter_eq_nil_iff]
      intro r hr hany
      have hany2 : (((asArr (getField rp.args "records")).map
          (fun record => getField record "_id")).any
          (fun idv => strictEq (getField r "_id") idv)) = true := hany
      obtain ⟨idv, hidv, hpred⟩ := List.any_eq_true.mp hany2
      obtain ⟨record, hrec2, hrec3⟩ := List.mem_map.mp hidv
      rw [← hrec3] at hpred
      rw [hnone r hr record hrec2] at hpred
      cases hpred
    rw [findByIdsStoreFetch, hfl]
  rw [mutationByIdsEachResolve,
    if_neg (by rw [hv]; exact Bool.false_ne_true),
    if_neg (by rw [hall]; exact Bool.false_ne_true),
    if_neg (by rw [hself]; exact Bool.false_ne_true)]
  dsimp only
  rw [hfetch]
  exact ⟨rfl, rfl⟩

/-- Witness for C10 at a concrete input: store holding only a record with
    id 5, batch targeting id 1 — the wrapper delegates. -/
theorem byIdsEach_nonexistent_ids_pass_witness :
    isValidJwtPayload userClaim = true ∧
    (mutationByIdsEachResolve selfPolicy
      (findByIdsStoreFetch [vObj [("_id", vNum 5), ("ownerId", vNum 99)]])
      (fun _ => vStr "ran")
      ⟨vObj [("records", vArr [vObj [("_id", vNum 1)]])], vObj [], userClaim⟩).result =
      .ok (vStr "ran") := by
  have hnone : ∀ r ∈ ([vObj [("_id", vNum 5), ("ownerId", vNum 99)]] : Store),
      ∀ record ∈ asArr (getField
        (vObj [("records", vArr [vObj [("_id", vNum 1)]])]) "records"),
      strictEq (getField r "_id") (getField record "_id") = false := by
    intro r hr record hrec
    rw [List.mem_singleton] at hr
    have hrec2 : record ∈ [vObj [("_id", vNum 1)]] := hrec
    rw [List.mem_singleton] at hrec2
    subst hr
    subst hrec2
    rfl
  refine ⟨rfl, ?_⟩
  exact (byIdsEach_nonexistent_ids_pass selfPolicy
    [vObj [("_id", vNum 5), ("ownerId", vNum 99)]] (fun _ => vStr "ran")
    ⟨vObj [("records", vArr [vObj [("_id", vNum 1)]])], vObj [], userClaim⟩
    rfl rfl rfl hnone).1

/-- C4 counterexample: the input list [record with only an id] passes
    validation and reaches the store: with a stored record of id 1, the
    resolver returns a successful payload instead of the invalid-payload
    rejection the claim requires for records that are empty aside from their
    id. -/
theorem updateEach_accepts_id_only_record :
    updateByIdEachResolve [vObj [("_id", vNum 1), ("val", vStr "a")]]
      (vArr [vObj [("_id", vNum 1)]]) =
      (.ok ⟨[vObj [("_id", vNum 1), ("val", vStr "a")]], 1⟩,
        [vObj [("_id", vNum 1), ("val", vStr "a")]]) := by
  rfl

/-- Validation error for any entry without keys (non-objects, empty objects,
    empty arrays, and null, where the keys call itself fails). -/
theorem checkUpdateEachRecord_err_of_keys_nil (r : JsVal) (h : objKeys r = []) :
    ∃ e, checkUpdateEachRecord r = .error e := by
  cases r with
  | vNull => exact ⟨.typeError, rfl⟩
  | vUndef => exact ⟨.updateEachBadRecord, rfl⟩
  | vBool b => exact ⟨.updateEachBadRecord, rfl⟩
  | vNum n => exact ⟨.updateEachBadRecord, rfl⟩
  | vStr s => exact ⟨.updateEachBadRecord, rfl⟩
  | vArr xs =>
    refine ⟨.updateEachBadRecord, ?_⟩
    simp [checkUpdateEachRecord, typeofIsObject, h]
  | vObj fields =>
    refine ⟨.updateEachBadRecord, ?_⟩
    simp [checkUpdateEachRecord, typeofIsObject, h]

/-- C4 (amended): the batch update-each resolver rejects, before any store
    interaction (the store is left untouched), every input that is not a
    non-empty list of entries having at least one key: a non-array input,
    the empty list, non-object entries, and key-less entries all fail; a
    record containing an id and nothing else, however, is accepted. -/
theorem updateEach_rejects_malformed (store : Store) (l : List JsVal)
    (hbad : l = [] ∨ ∃ r ∈ l, objKeys r = []) :
    (∃ e, (updateByIdEachResolve store (vArr l)).1 = .error e) ∧
    (updateByIdEachResolve store (vArr l)).2 = store := by
  rcases hbad with rfl | ⟨r, hr, hkeys⟩
  · exact ⟨⟨.updateEachEmptyList, rfl⟩, rfl⟩
  · obtain ⟨e, he⟩ := checkUpdateEachRecord_err_of_keys_nil r hkeys
    have hsome := firstRecordError_isSome l r e hr he
    obtain ⟨e2, he2⟩ := Option.isSome_iff_exists.mp hsome
    have hlen : ¬ (l.length = 0) := by
      intro h0
      rw [List.length_eq_zero.mp h0] at hr
      cases hr
    constructor
    · exact ⟨e2, by simp [updateByIdEachResolve, hlen, he2]⟩
    · simp [updateByIdEachResolve, hlen, he2]

/-- Witness for C4 (amended) at a concrete input: the empty list is
    rejected and the store left unchanged. -/
theorem updateEach_rejects_malformed_witness :
    (∃ e, (updateByIdEachResolve [] (vArr [])).1 = Except.error e) ∧
    (updateByIdEachResolve [] (vArr [])).2 = [] :=
  updateEach_rejects_malformed [] [] (Or.inl rfl)

/-- C7: for every store and valid non-empty input list (object entries with
    at least one field), the update-each resolver succeeds with updatedCount
    equal to the input length — whatever the store holds, so independent of
    how many rows actually changed — and its records list has one entry per
    input record in input order: the i-th output is the refetch, by the i-th
    input record's id, of the store state after that record's own update. -/
theorem updateEach_order_and_count (store : Store) (l : List JsVal)
    (hne : l ≠ [])
    (hvalid : ∀ r ∈ l, ∃ fields, r = vObj fields ∧ fields ≠ []) :
    (updateByIdEachResolve store (vArr l)).1 =
      .ok ⟨(runEachUpdate store l).1, l.length⟩ ∧
    (runEachUpdate store l).1.length = l.length ∧
    (∀ i : ℕ, (runEachUpdate store l).1[i]? = (l[i]?).map (fun doc =>
      findByIdStore (updateStoreById (runEachUpdate store (l.take i)).2 doc)
        (getField doc "_id"))) := by
  have hchecks : ∀ r ∈ l, checkUpdateEachRecord r = .ok () := by
    intro r hr
    obtain ⟨fields, rfl, hfne⟩ := hvalid r hr
    simp [checkUpdateEachRecord, typeofIsObject, objKeys, hfne]
  have hfe := firstRecordError_eq_none l hchecks
  have hlen0 : ¬ (l.length = 0) := fun h0 => hne (List.length_eq_zero.mp h0)
  refine ⟨?_, runEachUpdate_length store l,
    fun i => runEachUpdate_getElem? store l i⟩
  simp [updateByIdEachResolve, hlen0, hfe]

/-- Input fixture for the update-each scenario. -/
def updateEachInput : List JsVal :=
  [vObj [("_id", vNum 1), ("val", vStr "x")], vObj [("_id", vNum 2), ("val", vStr "y")]]

/-- Store fixture for the update-each scenario. -/
def updateEachStore : Store :=
  [vObj [("_id", vNum 1), ("val", vStr "a")], vObj [("_id", vNum 2), ("val", vStr "b")]]

/-- Witness for C7 at the spec scenario: two records, result ok with
    updatedCount 2 and the refetched records in input order. -/
theorem updateEach_order_and_count_witness :
    (updateByIdEachResolve updateEachStore (vArr updateEachInput)).1 =
      .ok ⟨(runEachUpdate updateEachStore updateEachInput).1, 2⟩ ∧
    (runEachUpdate updateEachStore updateEachInput).1 =
      [vObj [("_id", vNum 1), ("val", vStr "x")],
        vObj [("_id", vNum 2), ("val", vStr "y")]] := by
  constructor
  · have hvalid : ∀ r ∈ updateEachInput, ∃ fields, r = vObj fields ∧ fields ≠ [] := by
      intro r hr
      rcases List.mem_cons.mp hr with rfl | hr2
      · exact ⟨_, rfl, by simp⟩
      rcases List.mem_cons.mp hr2 with rfl | hr3
      · exact ⟨_, rfl, by simp⟩
      · cases hr3
    exact (updateEach_order_and_count updateEachStore updateEachInput
      (List.cons_ne_nil _ _) hvalid).1
  · rfl

/-- Restatement of the get-after-set lemma on the unfolded object form. -/
theorem getField_vObj_setFields_self (l : List (String × JsVal)) (k : String) (v : JsVal) :
    getField (vObj (setFields l k v)) k = v :=
  getField_setField_self l k v

/-- Restatement of the set-after-set lemma on the unfolded object form. -/
theorem setField_vObj_setFields (l : List (String × JsVal)) (k : String) (w v : JsVal) :
    setField (vObj (setFields l k w)) k v = setField (vObj l) k v :=
  setField_setField l k w v

/-- Evaluation of the query-with-filter wrapper on the read-self branch with
    an object filter: the delegate receives the request with the owner entry
    injected into the filter. -/
theorem queryWithFilter_selfBranch (cfg : EntityAuthConfig)
    (next : ResolveParams → JsVal) (user proj args : JsVal)
    (lf : List (String × JsVal))
    (hv : isValidJwtPayload user = true)
    (hrs : checkIfCanReadSelf user cfg = true)
    (hra : checkIfCanReadAll user cfg = false)
    (hfl : getField args "filter" = vObj lf) :
    queryWithFilterResolve cfg next ⟨args, proj, user⟩ =
      ⟨.ok (next ⟨setField args "filter"
          (setField (vObj lf) (uidField cfg) (getField user "id")), proj, user⟩), [],
        [⟨setField args "filter"
          (setField (vObj lf) (uidField cfg) (getField user "id")), proj, user⟩]⟩ := by
  rw [queryWithFilterResolve]
  rw [if_neg (by rw [hv]; exact Bool.false_ne_true),
    if_neg (by rw [hra]; exact Bool.false_ne_true),
    if_neg (by rw [hrs]; exact Bool.false_ne_true)]
  dsimp only
  rw [hfl]
  rw [if_neg (by simp [truthy])]

/-- Evaluation of the mutation-with-filter wrapper on the write-self branch
    with an object filter. -/
theorem mutationWithFilter_selfBranch (cfg : EntityAuthConfig)
    (next : ResolveParams → JsVal) (user proj args : JsVal)
    (lf : List (String × JsVal))
    (hv : isValidJwtPayload user = true)
    (hws : checkIfCanWriteSelf user cfg = true)
    (hwa : checkIfCanWriteAll user cfg = false)
    (hfl : getField args "filter" = vObj lf) :
    mutationWithFilterResolve cfg next ⟨args, proj, user⟩ =
      ⟨.ok (next ⟨setField args "filter"
          (setField (vObj lf) (uidField cfg) (getField user "id")), proj, user⟩), [],
        [⟨setField args "filter"
          (setField (vObj lf) (uidField cfg) (getField user "id")), proj, user⟩]⟩ := by
  rw [mutationWithFilterResolve]
  rw [if_neg (by rw [hv]; exact Bool.false_ne_true),
    if_neg (by rw [hwa]; exact Bool.false_ne_true),
    if_neg (by rw [hws]; exact Bool.false_ne_true)]
  dsimp only
  rw [hfl]
  rw [if_pos (show truthy (vObj lf) = true by rfl)]

/-- C9: for claims with readSelf (respectively writeSelf) but not readAll
    (writeAll), the filter-based query and mutation wrappers pass a filter
    whose owner entry equals the subject id regardless of any owner value
    the caller supplied, preserving every other filter field; consequently
    the wrapper behaves identically on two requests that differ only in the
    caller-supplied owner filter value. -/
theorem filter_injection_overrides_owner_filter (cfg : EntityAuthConfig)
    (next : ResolveParams → JsVal) (user proj w : JsVal)
    (al l : List (String × JsVal))
    (hv : isValidJwtPayload user = true)
    (hfl : getField (vObj al) "filter" = vObj l) :
    (checkIfCanReadSelf user cfg = true → checkIfCanReadAll user cfg = false →
      (∃ rp2 : ResolveParams,
        queryWithFilterResolve cfg next ⟨vObj al, proj, user⟩ =
          ⟨.ok (next rp2), [], [rp2]⟩ ∧
        getField (getField rp2.args "filter") (uidField cfg) = getField user "id" ∧
        (∀ k2, k2 ≠ uidField cfg →
          getField (getField rp2.args "filter") k2 = getField (vObj l) k2)) ∧
      queryWithFilterResolve cfg next
          ⟨setField (vObj al) "filter" (setField (vObj l) (uidField cfg) w),
            proj, user⟩ =
        queryWithFilterResolve cfg next ⟨vObj al, proj, user⟩) ∧
    (checkIfCanWriteSelf user cfg = true → checkIfCanWriteAll user cfg = false →
      (∃ rp2 : ResolveParams,
        mutationWithFilterResolve cfg next ⟨vObj al, proj, user⟩ =
          ⟨.ok (next rp2), [], [rp2]⟩ ∧
        getField (getField rp2.args "filter") (uidField cfg) = getField user "id" ∧
        (∀ k2, k2 ≠ uidField cfg →
          getField (getField rp2.args "filter") k2 = getField (vObj l) k2)) ∧
      mutationWithFilterResolve cfg next
          ⟨setField (vObj al) "filter" (setField (vObj l) (uidField cfg) w),
            proj, user⟩ =
        mutationWithFilterResolve cfg next ⟨vObj al, proj, user⟩) := by
  have hflW : getField (setField (vObj al) "filter"
      (setField (vObj l) (uidField cfg) w)) "filter" =
      vObj (setFields l (uidField cfg) w) := by
    rw [getField_setField_self]
    rfl
  constructor
  · intro hrs hra
    constructor
    · refine ⟨⟨setField (vObj al) "filter"
        (setField (vObj l) (uidField cfg) (getField user "id")), proj, user⟩,
        queryWithFilter_selfBranch cfg next user proj (vObj al) l hv hrs hra hfl,
        ?_, ?_⟩
      · dsimp only
        rw [getField_setField_self, getField_setField_self]
      · intro k2 hk2
        dsimp only
        rw [getField_setField_self, getField_setField_ne _ _ _ _ hk2]
    · rw [queryWithFilter_selfBranch cfg next user proj _ _ hv hrs hra hflW,
        queryWithFilter_selfBranch cfg next user proj (vObj al) l hv hrs hra hfl,
        setField_vObj_setFields, setField_setField]
  · intro hws hwa
    constructor
    · refine ⟨⟨setField (vObj al) "filter"
        (setField (vObj l) (uidField cfg) (getField user "id")), proj, user⟩,
        mutationWithFilter_selfBranch cfg next user proj (vObj al) l hv hws hwa hfl,
        ?_, ?_⟩
      · dsimp only
        rw [getField_setField_self, getField_setField_self]
      · intro k2 hk2
        dsimp only
        rw [getField_setField_self, getField_setField_ne _ _ _ _ hk2]
    · rw [mutationWithFilter_selfBranch cfg next user proj _ _ hv hws hwa hflW,
        mutationWithFilter_selfBranch cfg next user proj (vObj al) l hv hws hwa hfl,
        setField_vObj_setFields, setField_setField]

/-- Witness for C9 at a concrete input: whether the caller sets the owner
    filter entry to 42 or overwrites it with 55, the wrapped query behaves
    identically (the wrapper forces the entry to subject id 7). -/
theorem filter_injection_overrides_owner_filter_witness :
    isValidJwtPayload userClaim = true ∧
    queryWithFilterResolve selfPolicy (fun rp => getField rp.args "filter")
      ⟨setField (vObj [("filter", vObj [("a", vNum 1), ("ownerId", vNum 42)])])
        "filter"
        (setField (vObj [("a", vNum 1), ("ownerId", vNum 42)]) "ownerId" (vNum 55)),
        vObj [], userClaim⟩ =
    queryWithFilterResolve selfPolicy (fun rp => getField rp.args "filter")
      ⟨vObj [("filter", vObj [("a", vNum 1), ("ownerId", vNum 42)])],
        vObj [], userClaim⟩ := by
  refine ⟨rfl, ?_⟩
  exact (((filter_injection_overrides_owner_filter selfPolicy
    (fun rp => getField rp.args "filter") userClaim (vObj []) (vNum 55)
    [("filter", vObj [("a", vNum 1), ("ownerId", vNum 42)])]
    [("a", vNum 1), ("ownerId", vNum 42)] rfl rfl).1) rfl rfl).2

end ApiGenerator
